import Mathlib

/-!
Shallow embedding of the structure-inference and normalization engine of
`src/app.py` (Gestão de Usinas e UCs dashboard).

Cells of a spreadsheet grid are modelled by `Cell`: an absent cell (pandas
`NaN`), an integer number (openpyxl delivers integral Excel numbers as Python
ints), or a text string.  A pandas `DataFrame` read with `header=None` is
modelled by `DF`: a list of column labels (for a freshly loaded grid these are
the positional integers of the default `RangeIndex`) together with the list of
rows.  Positional cell access `row.iloc[k]` on a rectangular frame is modelled
by `cellAt`, which pads with `absent`; for the `isna`-style tests performed by
the code this padding is equivalent to pandas' behaviour on short slices.
-/

namespace GestaoUsinas

/-- A spreadsheet cell: absent (`NaN`), a number, or text. -/
inductive Cell where
  | absent : Cell
  | num : Int → Cell
  | text : String → Cell
deriving DecidableEq, Repr

/-- pandas `isna` on one cell. -/
def Cell.isna : Cell → Bool
  | .absent => true
  | _ => false

/-- Python `str(cell)`: `str(nan) = "nan"`, numbers print as themselves,
strings are unchanged. -/
def Cell.pyStr : Cell → String
  | .absent => "nan"
  | .num n => toString n
  | .text s => s

/-- Python `str.strip()`: remove whitespace characters from both ends. -/
def pyStrip (s : String) : String :=
  ⟨((s.data.dropWhile Char.isWhitespace).reverse.dropWhile Char.isWhitespace).reverse⟩

/-- One grid row. -/
abbrev Row := List Cell

/-- `row.iloc[i]` with `absent` padding beyond the row's end. -/
def cellAt (r : Row) (i : Nat) : Cell := r.getD i Cell.absent

/-- `row.notna().sum()`: the number of non-absent cells of the row. -/
def notnaCount (r : Row) : Nat := r.countP (fun c => !c.isna)

/-- `row.isna().all()`: every cell of the row is absent. -/
def rowAllNa (r : Row) : Bool := r.all Cell.isna

/-- `row.iloc[1:5].isna().all()`: the cells at columns 1..4 are all absent. -/
def allNa1to4 (r : Row) : Bool := [1, 2, 3, 4].all (fun k => (cellAt r k).isna)

/-- A pandas DataFrame: column labels plus data rows.  A raw grid loaded with
`header=None` carries the default positional integer labels `0, 1, …`. -/
structure DF where
  colLabels : List Cell
  rows : List Row
deriving DecidableEq, Repr

/-- The detection result of `identificar_estrutura_aba` (`app.py:51-78`). -/
structure Estrutura where
  header_row : Option Nat
  data_start : Option Nat
  title_row : Option Nat
  colunas : Row
deriving DecidableEq, Repr

/-- First row (with its index) satisfying `p`, scanning top to bottom —
the `for idx, row in df.iterrows()` loops with a first-hit guard/break. -/
def findFirstWith (p : Row → Bool) : List Row → Option (Nat × Row)
  | [] => none
  | r :: rs =>
    if p r then some (0, r)
    else (findFirstWith p rs).map (fun q => (q.1 + 1, q.2))

/-- `identificar_estrutura_aba` (`app.py:51-78`): the first row whose first
cell is non-absent and whose cells 1..4 are absent becomes `title_row`; the
first row with at least 3 non-absent cells becomes `header_row`, with
`data_start = header_row + 1` and `colunas = row.tolist()`. -/
def identificar_estrutura_aba (df : DF) : Estrutura :=
  let t := findFirstWith (fun r => !(cellAt r 0).isna && allNa1to4 r) df.rows
  match findFirstWith (fun r => decide (3 ≤ notnaCount r)) df.rows with
  | none => ⟨none, none, t.map Prod.fst, []⟩
  | some q => ⟨some q.1, some (q.1 + 1), t.map Prod.fst, q.2⟩

/-- Result of `processar_aba_generica` (`app.py:127-160`): optional title and
the extracted data frame (the code always fills `dados`). -/
structure ResultadoGenerico where
  titulo : Option String
  dados : DF
deriving DecidableEq, Repr

/-- `processar_aba_generica` (`app.py:127-160`): when a header row was
detected, the rows strictly below it become the data, relabelled by the header
row and stripped of fully-absent rows; otherwise the fallback branch returns
the original frame (original positional column labels) minus fully-absent
rows. -/
def processar_aba_generica (df : DF) : ResultadoGenerico :=
  let e := identificar_estrutura_aba df
  let titulo :=
    match e.title_row with
    | some i => some (Cell.pyStr (cellAt (df.rows.getD i []) 0))
    | none => none
  let dados :=
    match e.header_row, e.data_start with
    | some h, some ds =>
      DF.mk (df.rows.getD h []) ((df.rows.drop ds).filter (fun r => !rowAllNa r))
    | _, _ =>
      DF.mk df.colLabels (df.rows.filter (fun r => !rowAllNa r))
  ⟨titulo, dados⟩

/-- The data-extraction block of `processar_aba_generica` (`app.py:148-153`)
with the header-row index as an explicit argument, as in the spec's
`normalize(grid, headerRowIndex)` interface.  `df.iloc[headerRow]` is a
positional single-row lookup, which in pandas raises `IndexError` when the
index is out of bounds; that fallible lookup is modelled by `Except`. -/
def normalizeAt (df : DF) (headerRow : Nat) : Except String DF :=
  match df.rows.get? headerRow with
  | none => Except.error "IndexError"
  | some hdr =>
    Except.ok (DF.mk hdr ((df.rows.drop (headerRow + 1)).filter (fun r => !rowAllNa r)))

/-- `df.dropna(axis=1, how='all')` as applied by the rendering callers
(`app.py:329-335`, `app.py:392-394`): drop every column all of whose data
cells are absent; labels play no part in the test. -/
def dropAllNaColumns (d : DF) : DF :=
  let kept := (List.range d.colLabels.length).filter
    (fun j => !(d.rows.all (fun r => (cellAt r j).isna)))
  DF.mk (kept.map (fun j => cellAt d.colLabels j))
    (d.rows.map (fun r => kept.map (fun j => cellAt r j)))

/-- The title test of `processar_aba_dashboard_operacional` (`app.py:94`):
`str(row.iloc[0]).strip()` is a non-empty string longer than 10 characters and
the cells at columns 1..4 are all absent. -/
def isTitleRowDash (r : Row) : Bool :=
  let s := pyStrip (Cell.pyStr (cellAt r 0))
  !(s == "") && decide (10 < s.length) && allNa1to4 r

/-- The `titulos_encontrados` scan of `app.py:90-95`: every row passing the
title test, paired with its index, in top-to-bottom order.  `n` is the index
of the first row of `rows` in the whole grid. -/
def titulosAux (rows : List Row) (n : Nat) : List (String × Nat) :=
  match rows with
  | [] => []
  | r :: rs =>
    if isTitleRowDash r then (pyStrip (Cell.pyStr (cellAt r 0)), n) :: titulosAux rs (n + 1)
    else titulosAux rs (n + 1)

/-- All detected dashboard titles with their row indices. -/
def titulosEncontrados (rows : List Row) : List (String × Nat) := titulosAux rows 0

/-- The raw slice `df.iloc[inicio:fim]` belonging to the `i`-th title
(`app.py:99-108`): from the row after the title up to the next title
(exclusive) or the end of the grid. -/
def spanSliceRaw (df : DF) (i : Nat) : List Row :=
  let ts := titulosEncontrados df.rows
  let inicio := (ts.getD i ("", 0)).2 + 1
  let fim :=
    match ts.get? (i + 1) with
    | some t2 => t2.2
    | none => df.rows.length
  (df.rows.drop inicio).take (fim - inicio)

/-- The `i`-th title's slice after `dropna(how='all')` (`app.py:111`). -/
def spanRows (df : DF) (i : Nat) : List Row :=
  (spanSliceRaw df i).filter (fun r => !rowAllNa r)

/-- One extracted dashboard table: its title, the header row the code installs
as the column index (`app.py:115-117`), and the remaining data rows. -/
structure Tabela where
  titulo : String
  header : Row
  dados : List Row
deriving DecidableEq, Repr

/-- `processar_aba_dashboard_operacional` (`app.py:80-125`): for each detected
title take the slice below it, drop fully-absent rows, and if anything
survives emit a table whose header is the first surviving row and whose data
are the remaining ones; an empty span is skipped silently. -/
def processar_aba_dashboard_operacional (df : DF) : List Tabela :=
  let ts := titulosEncontrados df.rows
  (List.range ts.length).filterMap (fun i =>
    match spanRows df i with
    | [] => none
    | h :: rest => some ⟨(ts.getD i ("", 0)).1, h, rest⟩)

/-- The metric record of `calcular_metricas_numericas` (`app.py:175-181`). -/
structure Metricas where
  soma : Int
  media : ℚ
  minimo : Int
  maximo : Int
  count : Nat
deriving DecidableEq, Repr

/-- The cells of column `j`, top to bottom. -/
def colCells (d : DF) (j : Nat) : List Cell := d.rows.map (fun r => cellAt r j)

/-- `df[col].dropna()` for a numeric column: its non-absent numeric values. -/
def colVals (d : DF) (j : Nat) : List Int :=
  (colCells d j).filterMap (fun c =>
    match c with
    | .num n => some n
    | _ => none)

/-- pandas `select_dtypes(include=[np.number])` membership, modelled as: every
cell of the column is a number or absent (an all-absent column has dtype
`float64` and also counts as numeric). -/
def isNumericCol (d : DF) (j : Nat) : Bool :=
  (colCells d j).all (fun c =>
    match c with
    | .text _ => false
    | _ => true)

/-- `sum`/`mean`/`min`/`max`/`count` of a non-empty value list
(`app.py:176-180`); the mean is the rational `sum / count`. -/
def metricasDe (vals : List Int) : Metricas :=
  { soma := vals.foldl (· + ·) 0
    media := ((vals.foldl (· + ·) 0 : Int) : ℚ) / (vals.length : ℚ)
    minimo := vals.foldl min (vals.headD 0)
    maximo := vals.foldl max (vals.headD 0)
    count := vals.length }

/-- `calcular_metricas_numericas` (`app.py:162-183`): for each numeric column
with at least one non-absent value, its label paired with the five aggregates;
other columns are skipped.  Columns are visited in positional order. -/
def calcular_metricas_numericas (d : DF) : List (Cell × Metricas) :=
  (List.range d.colLabels.length).filterMap (fun j =>
    if isNumericCol d j then
      if (colVals d j).isEmpty then none
      else some (cellAt d.colLabels j, metricasDe (colVals d j))
    else none)

/-- Loader error vocabulary of the spec, for comparison with the code. -/
inductive LoadError where
  | sourceNotFound
deriving DecidableEq, Repr

/-- `carregar_planilhas` (`app.py:34-49`): a present workbook is a list of
(sheet name, grid) pairs; each name is trimmed.  A missing source (`none`)
makes `pd.ExcelFile` raise, the bare `except` branch swallows the exception
and the function returns the empty mapping — an error value is never
produced. -/
def carregar_planilhas (source : Option (List (String × DF))) :
    Except LoadError (List (String × DF)) :=
  match source with
  | none => Except.ok []
  | some sheets => Except.ok (sheets.map (fun p => (pyStrip p.1, p.2)))

/-- Spec-side restatement of the title-boundary test: the first cell, trimmed,
is non-empty and longer than 10 characters, and the cells at columns 1..4 are
all empty. -/
def specTitleBoundary (r : Row) : Prop :=
  pyStrip (Cell.pyStr (cellAt r 0)) ≠ "" ∧
  10 < (pyStrip (Cell.pyStr (cellAt r 0))).length ∧
  ∀ k ∈ [1, 2, 3, 4], (cellAt r k).isna = true

instance : DecidablePred specTitleBoundary := fun r => by
  unfold specTitleBoundary; infer_instance

/-- Scenario A's grid exactly as written in the spec: short titles
"TITLE A" / "TITLE B", data rows underneath, rectangular width 5 with the
loader's positional integer column labels. -/
def scenarioA : DF :=
  ⟨[Cell.num 0, Cell.num 1, Cell.num 2, Cell.num 3, Cell.num 4],
   [[Cell.text "TITLE A", .absent, .absent, .absent, .absent],
    [Cell.text "Name", Cell.text "Value", .absent, .absent, .absent],
    [Cell.text "x", Cell.num 10, .absent, .absent, .absent],
    [Cell.text "y", Cell.num 20, .absent, .absent, .absent],
    [Cell.text "TITLE B", .absent, .absent, .absent, .absent],
    [Cell.text "Name", Cell.text "Value", .absent, .absent, .absent],
    [Cell.text "z", Cell.num 5, .absent, .absent, .absent]]⟩

/-- Scenario A's grid with the two titles lengthened past the 10-character
threshold, which is the least change that makes the title heuristic fire. -/
def scenarioALong : DF :=
  ⟨[Cell.num 0, Cell.num 1, Cell.num 2, Cell.num 3, Cell.num 4],
   [[Cell.text "TITLE A SECTION", .absent, .absent, .absent, .absent],
    [Cell.text "Name", Cell.text "Value", .absent, .absent, .absent],
    [Cell.text "x", Cell.num 10, .absent, .absent, .absent],
    [Cell.text "y", Cell.num 20, .absent, .absent, .absent],
    [Cell.text "TITLE B SECTION", .absent, .absent, .absent, .absent],
    [Cell.text "Name", Cell.text "Value", .absent, .absent, .absent],
    [Cell.text "z", Cell.num 5, .absent, .absent, .absent]]⟩

/-- Scenario B's normalized one-column table: "Value" = [10, 20, absent]. -/
def dfScenB : DF := ⟨[Cell.text "Value"], [[Cell.num 10], [Cell.num 20], [Cell.absent]]⟩

/-- A grid in which no row has 3 non-absent cells, with one fully-absent row;
its column labels are the loader's positional integers. -/
def g5 : DF :=
  ⟨[Cell.num 0, Cell.num 1],
   [[Cell.text "a", Cell.num 1], [.absent, .absent]]⟩

/-- A grid whose header row has an absent cell in column 2 while the data row
below carries a value there. -/
def g6 : DF :=
  ⟨[Cell.num 0, Cell.num 1, Cell.num 2, Cell.num 3],
   [[Cell.text "A", Cell.text "B", .absent, Cell.text "C"],
    [Cell.num 1, Cell.num 2, Cell.num 3, Cell.num 4]]⟩

/-- A one-row grid, for probing the normalizer at an out-of-bounds header
index. -/
def df9 : DF := ⟨[Cell.num 0], [[Cell.num 1]]⟩

/-- A dashboard grid with one long title followed by a single surviving row. -/
def dfSingle : DF :=
  ⟨[Cell.num 0, Cell.num 1, Cell.num 2, Cell.num 3, Cell.num 4],
   [[Cell.text "RELATORIO GERAL", .absent, .absent, .absent, .absent],
    [Cell.text "linha", .absent, .absent, .absent, .absent]]⟩

/-- A small rectangular grid for instantiating the row-exclusion theorem. -/
def dfW7 : DF :=
  ⟨[Cell.num 0, Cell.num 1],
   [[Cell.text "H1", Cell.text "H2"],
    [Cell.text "a", .absent],
    [.absent, .absent]]⟩

/-- The table `normalizeAt dfW7 0` produces. -/
def tW7 : DF := ⟨[Cell.text "H1", Cell.text "H2"], [[Cell.text "a", .absent]]⟩

theorem findFirstWith_eq_none (p : Row → Bool) (l : List Row) :
    findFirstWith p l = none ↔ ∀ r ∈ l, p r = false := by
  induction l with
  | nil => simp [findFirstWith]
  | cons a as ih =>
    by_cases h : p a
    · simp [findFirstWith, h]
    · simp [findFirstWith, h, ih]

theorem getD_of_get? {α : Type} {l : List α} {i : Nat} {x d : α}
    (h : l.get? i = some x) : l.getD i d = x := by
  simp [List.getD_eq_getElem?_getD, ← List.get?_eq_getElem?, h]

theorem findFirstWith_eq_some (p : Row → Bool) (l : List Row) (i : Nat) (r : Row) :
    findFirstWith p l = some (i, r) →
      l.get? i = some r ∧ p r = true ∧
        ∀ j, j < i → ∃ rj, l.get? j = some rj ∧ p rj = false := by
  induction l generalizing i r with
  | nil => simp [findFirstWith]
  | cons a as ih =>
    intro heq
    by_cases h : p a = true
    · rw [findFirstWith, if_pos h] at heq
      have hpair : (0, a) = (i, r) := Option.some.inj heq
      have hi : 0 = i := congrArg Prod.fst hpair
      have hr : a = r := congrArg Prod.snd hpair
      subst hi; subst hr
      exact ⟨rfl, h, fun j hj => absurd hj (Nat.not_lt_zero j)⟩
    · rw [findFirstWith, if_neg h] at heq
      cases hfa : findFirstWith p as with
      | none => rw [hfa] at heq; simp at heq
      | some q =>
        rw [hfa] at heq
        simp only [Option.map_some'] at heq
        have hpair : (q.1 + 1, q.2) = (i, r) := Option.some.inj heq
        have hi : q.1 + 1 = i := congrArg Prod.fst hpair
        have hr : q.2 = r := congrArg Prod.snd hpair
        subst hi; subst hr
        obtain ⟨hget, hp, hmin⟩ := ih q.1 q.2 hfa
        refine ⟨hget, hp, fun j hj => ?_⟩
        cases j with
        | zero => exact ⟨a, rfl, Bool.eq_false_iff.mpr h⟩
        | succ j0 => exact hmin j0 (Nat.lt_of_succ_lt_succ hj)

/-- C4 counterexample: on the spec's own Scenario A grid the extractor yields
no sub-table at all, because "TITLE A" and "TITLE B" are 7 characters long and
the title test demands strictly more than 10; in particular it does not yield
the two claimed sub-tables. -/
theorem c4_counterexample :
    processar_aba_dashboard_operacional scenarioA = [] ∧
    (processar_aba_dashboard_operacional scenarioA).length ≠ 2 := by
  constructor
  · rfl
  · decide

/-- C4 amended: once the two titles are longer than 10 characters the
extractor yields exactly the two claimed sub-tables; after the renderer's
all-absent-column drop their columns are [Name, Value] with data rows
[(x,10),(y,20)] and [(z,5)]. -/
theorem c4_amended_split :
    (processar_aba_dashboard_operacional scenarioALong).map Tabela.titulo
      = ["TITLE A SECTION", "TITLE B SECTION"] ∧
    (processar_aba_dashboard_operacional scenarioALong).map
        (fun t => dropAllNaColumns (DF.mk t.header t.dados))
      = [DF.mk [Cell.text "Name", Cell.text "Value"]
           [[Cell.text "x", Cell.num 10], [Cell.text "y", Cell.num 20]],
         DF.mk [Cell.text "Name", Cell.text "Value"]
           [[Cell.text "z", Cell.num 5]]] := by
  constructor
  · rfl
  · rfl

/-- C8 counterexample: on a missing source the loader returns the successful
empty mapping produced by its catch-all handler; it does not fail with a
source-not-found error. -/
theorem c8_counterexample :
    carregar_planilhas none = Except.ok ([] : List (String × DF)) ∧
    carregar_planilhas none ≠ Except.error LoadError.sourceNotFound :=
  ⟨rfl, fun h => Except.noConfusion h⟩

/-- C8 amended: the loader never fails — every input yields `ok`, and the
missing-source case yields the empty mapping (so no partial mapping either). -/
theorem c8_loader_never_fails :
    (∀ source : Option (List (String × DF)),
      ∃ m, carregar_planilhas source = Except.ok m) ∧
    carregar_planilhas none = Except.ok [] := by
  refine ⟨fun source => ?_, rfl⟩
  cases source with
  | none => exact ⟨[], rfl⟩
  | some sheets => exact ⟨_, rfl⟩

/-- C9 counterexample: on the one-row grid `df9` the normalizer given header
index 5 fails with an out-of-range error instead of clamping to row 0. -/
theorem c9_counterexample :
    normalizeAt df9 5 = Except.error "IndexError" ∧ 1 ≤ df9.rows.length := by
  exact ⟨rfl, by decide⟩

/-- C5 counterexample: `g5` has no row with 3 non-absent cells, and the
fallback keeps the loader's positional integer column labels — not synthetic
"Col_0", "Col_1" strings — and drops the fully-absent second row rather than
keeping the whole grid. -/
theorem c5_counterexample :
    (identificar_estrutura_aba g5).header_row = none ∧
    (processar_aba_generica g5).dados.colLabels ≠ [Cell.text "Col_0", Cell.text "Col_1"] ∧
    (processar_aba_generica g5).dados.colLabels = [Cell.num 0, Cell.num 1] ∧
    (processar_aba_generica g5).dados.rows = [[Cell.text "a", Cell.num 1]] := by
  refine ⟨rfl, ?_, rfl, rfl⟩
  decide

/-- C6 counterexample: in `g6` the header's column 2 has a missing label but
the data row below holds the value 3 there, so after the whole pipeline
(structure detection, normalization, all-absent-column drop) a column with a
missing label is still present in the displayed table. -/
theorem c6_counterexample :
    Cell.absent ∈ (dropAllNaColumns (processar_aba_generica g6).dados).colLabels ∧
    (dropAllNaColumns (processar_aba_generica g6).dados).rows
      = [[Cell.num 1, Cell.num 2, Cell.num 3, Cell.num 4]] := by
  constructor
  · decide
  · rfl

/-- C2: the structure detector sets `header_row` to the first row, scanning
top to bottom, with at least 3 non-absent cells (`header_row` is `none`
exactly when no such row exists); whenever `header_row` is set,
`data_start = header_row + 1` and `colunas` is exactly that row's cell list,
positionally, absent cells included. -/
theorem c2_header_detection (df : DF) :
    ((identificar_estrutura_aba df).header_row = none ↔
      ∀ r ∈ df.rows, notnaCount r < 3) ∧
    (∀ i, (identificar_estrutura_aba df).header_row = some i →
      3 ≤ notnaCount (df.rows.getD i []) ∧
      (∀ j, j < i → notnaCount (df.rows.getD j []) < 3) ∧
      (identificar_estrutura_aba df).data_start = some (i + 1) ∧
      (identificar_estrutura_aba df).colunas = df.rows.getD i []) := by
  constructor
  · cases hf : findFirstWith (fun r => decide (3 ≤ notnaCount r)) df.rows with
    | none =>
      have hall := (findFirstWith_eq_none _ df.rows).mp hf
      have hall3 : ∀ r ∈ df.rows, notnaCount r < 3 := by
        intro r hr
        have := hall r hr
        have := of_decide_eq_false this
        omega
      simp only [identificar_estrutura_aba, hf]
      exact iff_of_true trivial hall3
    | some q =>
      have hq := findFirstWith_eq_some _ df.rows q.1 q.2 hf
      simp only [identificar_estrutura_aba, hf]
      constructor
      · intro h; exact absurd h (by simp)
      · intro hall
        have hmem : q.2 ∈ df.rows := List.get?_mem hq.1
        have := hall q.2 hmem
        have h3 : (3 ≤ notnaCount q.2) := of_decide_eq_true hq.2.1
        omega
  · intro i hi
    cases hf : findFirstWith (fun r => decide (3 ≤ notnaCount r)) df.rows with
    | none => simp [identificar_estrutura_aba, hf] at hi
    | some q =>
      simp only [identificar_estrutura_aba, hf] at hi ⊢
      have hi1 : q.1 = i := by simpa using hi
      subst hi1
      obtain ⟨hget, hp, hmin⟩ := findFirstWith_eq_some _ df.rows q.1 q.2 hf
      have hgetD : df.rows.getD q.1 [] = q.2 := getD_of_get? hget
      refine ⟨?_, ?_, rfl, hgetD.symm⟩
      · rw [hgetD]; exact of_decide_eq_true hp
      · intro j hj
        obtain ⟨rj, hgj, hpj⟩ := hmin j hj
        rw [getD_of_get? hgj]
        have := of_decide_eq_false hpj
        omega

theorem c2_witness :
    (identificar_estrutura_aba g6).data_start = some 1 ∧
    (identificar_estrutura_aba g6).colunas = g6.rows.getD 0 [] := by
  have h := (c2_header_detection g6).2 0 (by rfl)
  exact ⟨h.2.2.1, h.2.2.2⟩

/-- C5 amended: when no row has at least 3 non-absent cells, the detector
leaves `header_row`/`data_start` unset, and the caller's fallback returns the
raw grid minus its fully-absent rows, keeping the loader's positional integer
column labels (no error is possible: every function involved is total). -/
theorem c5_fallback (df : DF) (h : ∀ r ∈ df.rows, notnaCount r < 3) :
    (identificar_estrutura_aba df).header_row = none ∧
    (identificar_estrutura_aba df).data_start = none ∧
    (processar_aba_generica df).dados
      = DF.mk df.colLabels (df.rows.filter (fun r => !rowAllNa r)) := by
  have hn : findFirstWith (fun r => decide (3 ≤ notnaCount r)) df.rows = none := by
    rw [findFirstWith_eq_none]
    intro r hr
    simpa [Nat.not_le] using h r hr
  refine ⟨?_, ?_, ?_⟩ <;>
    simp [identificar_estrutura_aba, processar_aba_generica, hn]

theorem c5_witness :
    (identificar_estrutura_aba g5).header_row = none ∧
    (identificar_estrutura_aba g5).data_start = none ∧
    (processar_aba_generica g5).dados
      = DF.mk g5.colLabels (g5.rows.filter (fun r => !rowAllNa r)) :=
  c5_fallback g5 (by decide)

/-- C9 amended: the code performs no clamping at all — `normalizeAt` fails
with an out-of-range error beyond the grid (see the counterexample) — but the
detector only ever supplies in-bounds header indices, for which `normalizeAt`
succeeds and agrees with the fused pipeline `processar_aba_generica`. -/
theorem c9_no_clamp_detector_inbounds (df : DF) (i : Nat)
    (h : (identificar_estrutura_aba df).header_row = some i) :
    (∃ r, df.rows.get? i = some r) ∧
    normalizeAt df i
      = Except.ok (DF.mk (df.rows.getD i [])
          ((df.rows.drop (i + 1)).filter (fun r => !rowAllNa r))) ∧
    (processar_aba_generica df).dados
      = DF.mk (df.rows.getD i [])
          ((df.rows.drop (i + 1)).filter (fun r => !rowAllNa r)) := by
  cases hf : findFirstWith (fun r => decide (3 ≤ notnaCount r)) df.rows with
  | none => simp [identificar_estrutura_aba, hf] at h
  | some q =>
    have hi1 : q.1 = i := by
      simpa [identificar_estrutura_aba, hf] using h
    subst hi1
    obtain ⟨hget, _, _⟩ := findFirstWith_eq_some _ df.rows q.1 q.2 hf
    have hgetD : df.rows.getD q.1 [] = q.2 := getD_of_get? hget
    refine ⟨⟨q.2, hget⟩, ?_, ?_⟩
    · unfold normalizeAt
      rw [hget, hgetD]
    · simp only [processar_aba_generica, identificar_estrutura_aba, hf]

theorem c9_witness :
    (∃ r, g6.rows.get? 0 = some r) ∧
    normalizeAt g6 0
      = Except.ok (DF.mk (g6.rows.getD 0 [])
          ((g6.rows.drop (0 + 1)).filter (fun r => !rowAllNa r))) ∧
    (processar_aba_generica g6).dados
      = DF.mk (g6.rows.getD 0 [])
          ((g6.rows.drop (0 + 1)).filter (fun r => !rowAllNa r)) :=
  c9_no_clamp_detector_inbounds g6 0 (by rfl)

/-- C3: the aggregator emits, for exactly the columns all of whose cells are
numeric-or-absent and which have at least one non-absent value, the label
paired with sum/mean/min/max/count computed over the non-absent values only;
columns with zero non-absent numeric values yield no entry at all.  On the
Scenario B table ("Value" = [10, 20, absent]) the result is precisely
{sum 30, mean 15, min 10, max 20, count 2}. -/
theorem c3_metric_aggregation (d : DF) :
    (∀ j, j < d.colLabels.length → isNumericCol d j = true → colVals d j ≠ [] →
      (cellAt d.colLabels j, metricasDe (colVals d j)) ∈ calcular_metricas_numericas d) ∧
    (∀ p ∈ calcular_metricas_numericas d,
      ∃ j, j < d.colLabels.length ∧ isNumericCol d j = true ∧ colVals d j ≠ [] ∧
        p = (cellAt d.colLabels j, metricasDe (colVals d j))) ∧
    calcular_metricas_numericas dfScenB
      = [(Cell.text "Value", ⟨30, 15, 10, 20, 2⟩)] := by
  refine ⟨?_, ?_, ?_⟩
  · intro j hj hnum hne
    apply List.mem_filterMap.mpr
    refine ⟨j, List.mem_range.mpr hj, ?_⟩
    have he : (colVals d j).isEmpty = false := by
      cases hv : colVals d j with
      | nil => exact absurd hv hne
      | cons a l => rfl
    rw [if_pos hnum, if_neg (by simp [he])]
  · intro p hp
    obtain ⟨j, hjr, hj⟩ := List.mem_filterMap.mp hp
    have hjlt := List.mem_range.mp hjr
    by_cases hnum : isNumericCol d j = true
    · rw [if_pos hnum] at hj
      by_cases he : (colVals d j).isEmpty = true
      · rw [if_pos he] at hj; exact absurd hj (by simp)
      · rw [if_neg he] at hj
        refine ⟨j, hjlt, hnum, ?_, (Option.some.inj hj).symm⟩
        intro hv
        exact he (by simp [hv])
    · rw [if_neg hnum] at hj; exact absurd hj (by simp)
  · have h1 : calcular_metricas_numericas dfScenB
        = [(Cell.text "Value", metricasDe [10, 20])] := rfl
    have h2 : metricasDe [10, 20] = ⟨30, 15, 10, 20, 2⟩ := by
      unfold metricasDe
      norm_num [List.foldl, List.headD]
    rw [h1, h2]

theorem c3_witness :
    (Cell.text "Value",
      metricasDe (colVals dfScenB 0)) ∈ calcular_metricas_numericas dfScenB :=
  (c3_metric_aggregation dfScenB).1 0 (by decide) (by decide) (by decide)

theorem isTitleRowDash_iff (r : Row) :
    isTitleRowDash r = true ↔ specTitleBoundary r := by
  unfold isTitleRowDash specTitleBoundary allNa1to4
  simp only [Bool.and_eq_true, Bool.not_eq_true', beq_eq_false_iff_ne, ne_eq,
    decide_eq_true_eq, List.all_eq_true]
  tauto

theorem titulosAux_mem (rows : List Row) :
    ∀ (n : Nat) (t : String) (i : Nat),
      ((t, i) ∈ titulosAux rows n ↔
        ∃ k, k < rows.length ∧ i = n + k ∧ isTitleRowDash (rows.getD k []) = true ∧
          t = pyStrip (Cell.pyStr (cellAt (rows.getD k []) 0))) := by
  induction rows with
  | nil => intro n t i; simp [titulosAux]
  | cons r rs ih =>
    intro n t i
    by_cases h : isTitleRowDash r = true
    · rw [titulosAux, if_pos h]
      constructor
      · intro hm
        rcases List.mem_cons.mp hm with heq | hm2
        · have ht : t = pyStrip (Cell.pyStr (cellAt r 0)) := congrArg Prod.fst heq
          have hi : i = n := congrArg Prod.snd heq
          exact ⟨0, Nat.succ_pos _, by omega, by simpa using h, by simpa using ht⟩
        · obtain ⟨k, hk, hik, hkt, hkt2⟩ := (ih (n + 1) t i).mp hm2
          refine ⟨k + 1, by simpa using Nat.succ_lt_succ hk, by omega, ?_, ?_⟩
          · rw [List.getD_cons_succ]; exact hkt
          · rw [List.getD_cons_succ]; exact hkt2
      · rintro ⟨k, hk, hik, hkt, hkt2⟩
        cases k with
        | zero =>
          apply List.mem_cons.mpr; left
          rw [List.getD_cons_zero] at hkt2
          rw [hkt2, hik]
          norm_num
        | succ k0 =>
          apply List.mem_cons.mpr; right
          rw [List.getD_cons_succ] at hkt hkt2
          simp only [List.length_cons] at hk
          exact (ih (n + 1) t i).mpr ⟨k0, by omega, by omega, hkt, hkt2⟩
    · rw [titulosAux, if_neg h]
      constructor
      · intro hm
        obtain ⟨k, hk, hik, hkt, hkt2⟩ := (ih (n + 1) t i).mp hm
        refine ⟨k + 1, by simpa using Nat.succ_lt_succ hk, by omega, ?_, ?_⟩
        · rw [List.getD_cons_succ]; exact hkt
        · rw [List.getD_cons_succ]; exact hkt2
      · rintro ⟨k, hk, hik, hkt, hkt2⟩
        cases k with
        | zero =>
          rw [List.getD_cons_zero] at hkt
          exact absurd hkt h
        | succ k0 =>
          rw [List.getD_cons_succ] at hkt hkt2
          simp only [List.length_cons] at hk
          exact (ih (n + 1) t i).mpr ⟨k0, by omega, by omega, hkt, hkt2⟩

theorem titulosAux_snd_lb (rows : List Row) :
    ∀ (n : Nat) (p : String × Nat), p ∈ titulosAux rows n → n ≤ p.2 := by
  induction rows with
  | nil => intro n p hp; simp [titulosAux] at hp
  | cons r rs ih =>
    intro n p hp
    by_cases h : isTitleRowDash r = true
    · rw [titulosAux, if_pos h] at hp
      rcases List.mem_cons.mp hp with heq | hmem
      · rw [heq]
      · exact Nat.le_of_succ_le (ih (n + 1) p hmem)
    · rw [titulosAux, if_neg h] at hp
      exact Nat.le_of_succ_le (ih (n + 1) p hp)

theorem titulosAux_snd_ub (rows : List Row) :
    ∀ (n : Nat) (p : String × Nat), p ∈ titulosAux rows n → p.2 < n + rows.length := by
  induction rows with
  | nil => intro n p hp; simp [titulosAux] at hp
  | cons r rs ih =>
    intro n p hp
    by_cases h : isTitleRowDash r = true
    · rw [titulosAux, if_pos h] at hp
      rcases List.mem_cons.mp hp with heq | hmem
      · rw [heq]; simp
      · have := ih (n + 1) p hmem
        simpa [Nat.succ_add] using Nat.lt_of_lt_of_le this (by omega)
    · rw [titulosAux, if_neg h] at hp
      have := ih (n + 1) p hp
      simpa [Nat.succ_add] using Nat.lt_of_lt_of_le this (by omega)

theorem titulosAux_chain (rows : List Row) :
    ∀ (n : Nat), List.Chain' (fun p q => p.2 < q.2) (titulosAux rows n) := by
  induction rows with
  | nil => intro n; simp [titulosAux]
  | cons r rs ih =>
    intro n
    by_cases h : isTitleRowDash r = true
    · rw [titulosAux, if_pos h]
      apply List.chain'_cons'.mpr
      refine ⟨?_, ih (n + 1)⟩
      intro q hq
      have hmem : q ∈ titulosAux rs (n + 1) := List.mem_of_mem_head? hq
      have := titulosAux_snd_lb rs (n + 1) q hmem
      show n < q.2
      omega
    · rw [titulosAux, if_neg h]
      exact ih (n + 1)

/-- C1: (i) the dashboard extractor records row index `i` as a title boundary
exactly when row `i` exists and satisfies the boundary test (first cell
trimmed non-empty, longer than 10 characters, columns 1..4 absent) — it fires
on every matching row; (ii) the recorded boundaries are strictly increasing;
(iii) between consecutive boundaries the raw span slice is exactly the rows
from `titleRow[i] + 1` up to `titleRow[i+1] - 1` (the grid suffix below a
title decomposes as that slice followed by the suffix from the next title);
(iv) the last span runs to the end of the grid. -/
theorem c1_title_boundaries_and_spans (df : DF) :
    (∀ i, (∃ t, (t, i) ∈ titulosEncontrados df.rows) ↔
      (i < df.rows.length ∧ specTitleBoundary (df.rows.getD i []))) ∧
    List.Chain' (fun p q => p.2 < q.2) (titulosEncontrados df.rows) ∧
    (∀ i, i + 1 < (titulosEncontrados df.rows).length →
      df.rows.drop (((titulosEncontrados df.rows).getD i ("", 0)).2 + 1)
        = spanSliceRaw df i
          ++ df.rows.drop (((titulosEncontrados df.rows).getD (i + 1) ("", 0)).2)) ∧
    (∀ i, i + 1 = (titulosEncontrados df.rows).length →
      spanSliceRaw df i
        = df.rows.drop (((titulosEncontrados df.rows).getD i ("", 0)).2 + 1)) := by
  refine ⟨?_, titulosAux_chain df.rows 0, ?_, ?_⟩
  · intro i
    constructor
    · rintro ⟨t, ht⟩
      obtain ⟨k, hk, hik, hkt, _⟩ := (titulosAux_mem df.rows 0 t i).mp ht
      have hki : i = k := by omega
      subst hki
      exact ⟨hk, (isTitleRowDash_iff _).mp hkt⟩
    · rintro ⟨hi, hb⟩
      exact ⟨pyStrip (Cell.pyStr (cellAt (df.rows.getD i []) 0)),
        (titulosAux_mem df.rows 0 _ i).mpr
          ⟨i, hi, by omega, (isTitleRowDash_iff _).mpr hb, rfl⟩⟩
  · intro i hlt
    have hi : i < (titulosEncontrados df.rows).length := Nat.lt_of_succ_lt hlt
    have hget0 : (titulosEncontrados df.rows).get? i
        = some ((titulosEncontrados df.rows).get ⟨i, hi⟩) := List.get?_eq_get hi
    have hget1 : (titulosEncontrados df.rows).get? (i + 1)
        = some ((titulosEncontrados df.rows).get ⟨i + 1, hlt⟩) := List.get?_eq_get hlt
    have hgd0 : (titulosEncontrados df.rows).getD i ("", 0)
        = (titulosEncontrados df.rows).get ⟨i, hi⟩ := getD_of_get? hget0
    have hgd1 : (titulosEncontrados df.rows).getD (i + 1) ("", 0)
        = (titulosEncontrados df.rows).get ⟨i + 1, hlt⟩ := getD_of_get? hget1
    have hchain : List.Chain' (fun p q => p.2 < q.2) (titulosEncontrados df.rows) :=
      titulosAux_chain df.rows 0
    have hcons : ((titulosEncontrados df.rows).get ⟨i, hi⟩).2
        < ((titulosEncontrados df.rows).get ⟨i + 1, hlt⟩).2 :=
      List.chain'_iff_get.mp hchain i (by omega)
    rw [spanSliceRaw]
    simp only [hget1, hgd0, hgd1]
    set a := ((titulosEncontrados df.rows).get ⟨i, hi⟩).2 + 1 with ha
    set b := ((titulosEncontrados df.rows).get ⟨i + 1, hlt⟩).2 with hb
    have hab : a ≤ b := by omega
    conv_lhs => rw [← List.take_append_drop (b - a) (df.rows.drop a)]
    congr 1
    rw [List.drop_drop]
    congr 1
    omega
  · intro i hlen
    have hi : i < (titulosEncontrados df.rows).length := by omega
    have hnone : (titulosEncontrados df.rows).get? (i + 1) = none := by
      rw [List.get?_eq_none]; omega
    rw [spanSliceRaw]
    simp only [hnone]
    apply List.take_of_length_le
    rw [List.length_drop]

theorem c1_witness :
    ∃ t, (t, 0) ∈ titulosEncontrados scenarioALong.rows :=
  ((c1_title_boundaries_and_spans scenarioALong).1 0).mpr ⟨by decide, by decide⟩

theorem length_filterMap_eq_length_filter {α β : Type} (f : α → Option β) (l : List α) :
    (l.filterMap f).length = (l.filter (fun a => (f a).isSome)).length := by
  induction l with
  | nil => rfl
  | cons a as ih =>
    cases hfa : f a with
    | none => simp [List.filterMap_cons, List.filter_cons, hfa, ih]
    | some b => simp [List.filterMap_cons, List.filter_cons, hfa, ih]

/-- C10: the extractor emits one table per title whose span has at least one
surviving row — only zero-surviving-row spans are skipped (the lengths match
exactly): a span that consists of exactly one surviving row yields a table
with that row as header and no data rows, and every emitted table's header and
data are the head and tail of its span's surviving rows. -/
theorem c10_single_row_spans (df : DF) :
    ((processar_aba_dashboard_operacional df).length
      = ((List.range (titulosEncontrados df.rows).length).filter
          (fun i => !(spanRows df i).isEmpty)).length) ∧
    (∀ i r, i < (titulosEncontrados df.rows).length → spanRows df i = [r] →
      Tabela.mk ((titulosEncontrados df.rows).getD i ("", 0)).1 r []
        ∈ processar_aba_dashboard_operacional df) ∧
    (∀ tab ∈ processar_aba_dashboard_operacional df,
      ∃ i, i < (titulosEncontrados df.rows).length ∧
        spanRows df i = tab.header :: tab.dados ∧
        tab.titulo = ((titulosEncontrados df.rows).getD i ("", 0)).1) := by
  refine ⟨?_, ?_, ?_⟩
  · rw [processar_aba_dashboard_operacional, length_filterMap_eq_length_filter]
    congr 1
    apply List.filter_congr
    intro i _
    cases hs : spanRows df i with
    | nil => simp [hs]
    | cons hd rest => simp [hs]
  · intro i r hi hs
    rw [processar_aba_dashboard_operacional]
    apply List.mem_filterMap.mpr
    refine ⟨i, List.mem_range.mpr hi, ?_⟩
    rw [hs]
  · intro tab htab
    rw [processar_aba_dashboard_operacional] at htab
    obtain ⟨i, hir, hi⟩ := List.mem_filterMap.mp htab
    refine ⟨i, List.mem_range.mp hir, ?_, ?_⟩
    · cases hs : spanRows df i with
      | nil => rw [hs] at hi; exact absurd hi (by simp)
      | cons hd rest =>
        rw [hs] at hi
        have := Option.some.inj hi
        rw [← this]
    · cases hs : spanRows df i with
      | nil => rw [hs] at hi; exact absurd hi (by simp)
      | cons hd rest =>
        rw [hs] at hi
        have := Option.some.inj hi
        rw [← this]

theorem c10_witness :
    Tabela.mk ((titulosEncontrados dfSingle.rows).getD 0 ("", 0)).1
        [Cell.text "linha", .absent, .absent, .absent, .absent] []
      ∈ processar_aba_dashboard_operacional dfSingle :=
  (c10_single_row_spans dfSingle).2.1 0
    [Cell.text "linha", .absent, .absent, .absent, .absent]
    (by decide) (by decide)

/-- C7: for any rectangular grid and any in-bounds header index, the
normalized-and-column-dropped table contains no row whose surviving-column
cells are all absent (every output row keeps a non-absent cell); the kept rows
are a subsequence of the data rows below the header (original order
preserved), and the column-drop step loses no rows. -/
theorem c7_empty_row_exclusion (df : DF) (h : Nat) (t : DF)
    (hrect : ∀ r ∈ df.rows, r.length = df.colLabels.length)
    (hok : normalizeAt df h = Except.ok t) :
    (∀ r ∈ (dropAllNaColumns t).rows, ∃ c ∈ r, c.isna = false) ∧
    t.rows.Sublist (df.rows.drop (h + 1)) ∧
    (dropAllNaColumns t).rows.length = t.rows.length := by
  cases hget : df.rows.get? h with
  | none => unfold normalizeAt at hok; rw [hget] at hok; exact absurd hok (by simp)
  | some hdr =>
    unfold normalizeAt at hok
    rw [hget] at hok
    have ht : t = DF.mk hdr ((df.rows.drop (h + 1)).filter (fun r => !rowAllNa r)) :=
      (Except.ok.inj hok).symm
    subst ht
    refine ⟨?_, List.filter_sublist _, by simp [dropAllNaColumns]⟩
    intro r' hr'
    simp only [dropAllNaColumns] at hr'
    obtain ⟨r, hrmem, hr'eq⟩ := List.mem_map.mp hr'
    have hfilt := List.mem_filter.mp hrmem
    have hna : rowAllNa r = false := by simpa using hfilt.2
    obtain ⟨c, hc, hcna⟩ : ∃ c ∈ r, Cell.isna c = false := by
      have hnot : ¬(r.all Cell.isna = true) := by
        unfold rowAllNa at hna; simp [hna]
      rw [List.all_eq_true] at hnot
      push_neg at hnot
      obtain ⟨c, hcmem, hcna'⟩ := hnot
      exact ⟨c, hcmem, by simpa using hcna'⟩
    obtain ⟨⟨j, hjlt⟩, hjc⟩ := List.mem_iff_get.mp hc
    have hcell : cellAt r j = c := by
      unfold cellAt
      rw [getD_of_get? (List.get?_eq_get hjlt)]
      exact hjc
    have hrlen : r.length = df.colLabels.length := by
      apply hrect r
      exact List.mem_of_mem_drop (List.mem_of_mem_filter hrmem)
    have hwidth : hdr.length = df.colLabels.length := hrect hdr (List.get?_mem hget)
    have hkept : j ∈ (List.range hdr.length).filter
        (fun j => !(((df.rows.drop (h + 1)).filter (fun r => !rowAllNa r)).all
          (fun r => (cellAt r j).isna))) := by
      apply List.mem_filter.mpr
      refine ⟨List.mem_range.mpr (by omega), ?_⟩
      simp only [Bool.not_eq_true']
      apply List.all_eq_false.mpr
      exact ⟨r, hrmem, by rw [hcell]; simp [hcna]⟩
    refine ⟨c, ?_, hcna⟩
    rw [← hr'eq, ← hcell]
    exact List.mem_map_of_mem _ hkept

theorem c7_witness :
    tW7.rows.Sublist (dfW7.rows.drop (0 + 1)) ∧
    (dropAllNaColumns tW7).rows.length = tW7.rows.length :=
  (c7_empty_row_exclusion dfW7 0 tW7 (by decide) (by rfl)).2

/-- C6 amended: the pipeline's column drop is driven by the column's data, not
its label — every surviving column of `dropAllNaColumns` has at least one
non-absent data cell, and conversely every column with at least one non-absent
data cell survives with its label unchanged, even when that label is empty or
missing (see the counterexample: a missing-label column with data is kept). -/
theorem c6_column_drop_by_data (d : DF) :
    (∀ j, j < (dropAllNaColumns d).colLabels.length →
      ∃ r ∈ (dropAllNaColumns d).rows, (cellAt r j).isna = false) ∧
    (∀ j, j < d.colLabels.length →
      (∃ r ∈ d.rows, (cellAt r j).isna = false) →
      cellAt d.colLabels j ∈ (dropAllNaColumns d).colLabels) := by
  constructor
  · intro j hj
    simp only [dropAllNaColumns, List.length_map] at hj
    have hget : ((List.range d.colLabels.length).filter
        (fun j => !(d.rows.all (fun r => (cellAt r j).isna)))).get? j
        = some (((List.range d.colLabels.length).filter
            (fun j => !(d.rows.all (fun r => (cellAt r j).isna)))).get ⟨j, hj⟩) :=
      List.get?_eq_get hj
    set kept := (List.range d.colLabels.length).filter
      (fun j => !(d.rows.all (fun r => (cellAt r j).isna))) with hkept
    set j0 := kept.get ⟨j, hj⟩ with hj0
    have hj0mem : j0 ∈ kept := List.get?_mem hget
    have hj0cond := List.mem_filter.mp hj0mem
    have hall : d.rows.all (fun r => (cellAt r j0).isna) = false := by
      simpa using hj0cond.2
    obtain ⟨r, hrmem, hrna⟩ := List.all_eq_false.mp hall
    refine ⟨kept.map (fun jj => cellAt r jj), ?_, ?_⟩
    · simp only [dropAllNaColumns]
      exact List.mem_map_of_mem _ hrmem
    · have : cellAt (kept.map (fun jj => cellAt r jj)) j = cellAt r j0 := by
        unfold cellAt
        have hmget : (kept.map (fun jj => cellAt r jj)).get? j = some (cellAt r j0) := by
          rw [List.get?_map, hget]
          rfl
        exact getD_of_get? hmget
      rw [this]
      simpa using hrna
  · intro j hj hex
    obtain ⟨r, hrmem, hrna⟩ := hex
    have hjk : j ∈ (List.range d.colLabels.length).filter
        (fun j => !(d.rows.all (fun r => (cellAt r j).isna))) := by
      apply List.mem_filter.mpr
      refine ⟨List.mem_range.mpr hj, ?_⟩
      simp only [Bool.not_eq_true']
      exact List.all_eq_false.mpr ⟨r, hrmem, by simp [hrna]⟩
    simp only [dropAllNaColumns]
    exact List.mem_map_of_mem _ hjk

theorem c6_witness :
    ∃ r ∈ (dropAllNaColumns g6).rows, (cellAt r 2).isna = false :=
  (c6_column_drop_by_data g6).1 2 (by decide)

end GestaoUsinas
